import Mathlib

set_option maxRecDepth 10000

/- Verification development for the RAG chat backend.  The definitions below
are shallow embeddings of the JavaScript modules of the repository:
the document manager (chunking), the RAG pipeline (cosine similarity,
similarity search, prompt construction), the conversation manager (sessions,
bounded history) and the LLM service (provider gateway, retry, fallback).
JS numbers appearing in similarity computations are modelled as real numbers;
counters, word counts and timestamps (milliseconds since epoch) are naturals.
Network effects are modelled by passing the outcome of each network attempt
as an explicit argument. -/

namespace RagChat

/-! ## Document manager: chunkText -/

/-- Embedding of JS `text.split(' ')` (single-space separator, keeping empty
fragments, and yielding `[""]` on the empty string), by structural recursion
on the character list so that concrete inputs evaluate by kernel reduction. -/
def splitAux : List Char → List Char → List String
  | [], acc => [String.mk acc.reverse]
  | c :: cs, acc =>
    if c = ' ' then String.mk acc.reverse :: splitAux cs []
    else splitAux cs (c :: acc)

/-- Word splitting used by `chunkText`, i.e. JS `text.split(' ')`. -/
def splitWords (s : String) : List String := splitAux s.toList []

/-- Embedding of the loop inside `chunkText`:
`for (let i = 0; i < words.length; i += chunkSize - overlap) { chunks.push(words.slice(i, i + chunkSize).join(' ')); if (i + chunkSize >= words.length) break; }`.
The loop index is `i`; `fuel` bounds the number of iterations, and `none`
means the loop did not terminate within `fuel` iterations (the source loop
has no exit other than the two conditions modelled here).  JS
`i += chunkSize - overlap` never advances when `overlap ≥ chunkSize`, which
Nat subtraction models as a stride of `0`. -/
def chunkLoop (words : List String) (chunkSize overlap : Nat) : Nat → Nat → Option (List String)
  | _, 0 => none
  | i, fuel + 1 =>
    if i < words.length then
      let chunk := String.intercalate " " ((words.drop i).take chunkSize)
      if words.length ≤ i + chunkSize then
        some [chunk]
      else
        match chunkLoop words chunkSize overlap (i + (chunkSize - overlap)) fuel with
        | none => none
        | some rest => some (chunk :: rest)
    else
      some []

/-- Embedding of `chunkText(text, chunkSize, overlap)`: split on single spaces
and run the window loop.  A fuel of `words.length + 1` is enough for every
configuration with stride `≥ 1`, since the index strictly increases and the
loop stops at the latest when the index reaches the word count; `none`
therefore means the source loop diverges. -/
def chunkText (text : String) (chunkSize overlap : Nat) : Option (List String) :=
  let words := splitWords text
  chunkLoop words chunkSize overlap 0 (words.length + 1)

/-! ## Conversation manager: sessions and bounded history -/

/-- Metadata stored with a message by `addMessage` (conversationManager.js).
The open-ended JS metadata spread and the `similarityScores` array are not
needed by any modelled operation and are omitted. -/
structure MessageMetadata where
  tokensUsed : Nat := 0
  model : String := ""
  retrievedChunks : Nat := 0
deriving DecidableEq, Repr

/-- A conversation message as built by `addMessage`. -/
structure ChatMessage where
  id : String
  role : String
  content : String
  timestamp : Nat
  metadata : MessageMetadata
deriving DecidableEq, Repr

/-- A conversation session. -/
structure Session where
  id : String
  createdAt : Nat
  lastActivity : Nat
  messages : List ChatMessage
  messageCount : Nat
deriving DecidableEq, Repr

/-- The in-memory `sessions` Map, as an association list keyed by session id. -/
abbrev SessionStore := List (String × Session)

/-- Configuration `maxHistoryLength` (3 message pairs). -/
def maxHistoryLength : Nat := 6

/-- Configuration `sessionTimeout` (1 hour in milliseconds). -/
def sessionTimeout : Nat := 3600000

/-- Embedding of `isSessionExpired`: `(now - lastActivity) > sessionTimeout`.
Nat subtraction matches the JS date difference for the only case that
matters (`now ≥ lastActivity`); a future `lastActivity` is not expired in
either semantics. -/
def isSessionExpired (now : Nat) (s : Session) : Bool :=
  sessionTimeout < now - s.lastActivity

/-- Lookup in the session map (`sessions.get(sessionId)`). -/
def lookupSession (store : SessionStore) (sid : String) : Option Session :=
  (store.find? (fun kv => kv.1 == sid)).map (fun kv => kv.2)

/-- Deletion from the session map (`sessions.delete(sessionId)`). -/
def eraseSession (store : SessionStore) (sid : String) : SessionStore :=
  store.filter (fun kv => kv.1 != sid)

/-- Replacing a session value in the map (the source mutates the object the
map already holds). -/
def updateSession (store : SessionStore) (sid : String) (s : Session) : SessionStore :=
  store.map (fun kv => if kv.1 == sid then (kv.1, s) else kv)

/-- Embedding of `getSession(sessionId)`: `null` for a missing id; an expired
session is deleted from the map and `null` is returned; otherwise the stored
session.  The (possibly updated) map is returned alongside. -/
def getSession (store : SessionStore) (now : Nat) (sid : String) :
    Option Session × SessionStore :=
  match lookupSession store sid with
  | none => (none, store)
  | some s =>
    if isSessionExpired now s then (none, eraseSession store sid) else (some s, store)

/-- The history cap applied at the end of `addMessage`:
`if (messages.length > maxHistoryLength) messages.splice(0, messages.length - maxHistoryLength)`. -/
def trimToMax (l : List ChatMessage) : List ChatMessage :=
  if maxHistoryLength < l.length then l.drop (l.length - maxHistoryLength) else l

/-- Inputs of one `addMessage(sessionId, role, content, metadata)` call; `now`
is the clock reading and `msgId` the random message id, both passed
explicitly since the embedding is deterministic. -/
structure AddInput where
  now : Nat
  role : String
  content : String
  msgId : String
  metadata : MessageMetadata
deriving DecidableEq, Repr

/-- The message record `addMessage` builds before appending. -/
def mkChatMessage (i : AddInput) : ChatMessage :=
  { id := i.msgId
    role := i.role
    content := i.content
    timestamp := i.now
    metadata := i.metadata }

/-- Embedding of `addMessage`: throws `Session ... not found or expired` when
`getSession` yields `null`; otherwise appends the new message, bumps
`messageCount`, refreshes `lastActivity` and trims the oldest excess
messages down to `maxHistoryLength`. -/
def addMessage (store : SessionStore) (sid : String) (i : AddInput) :
    Except String SessionStore :=
  match getSession store i.now sid with
  | (none, _) => .error ("Session " ++ sid ++ " not found or expired")
  | (some session, store') =>
    let message := mkChatMessage i
    let msgs := trimToMax (session.messages ++ [message])
    .ok (updateSession store' sid
      { session with
        messages := msgs
        messageCount := session.messageCount + 1
        lastActivity := i.now })

/-- A sequence of `addMessage` calls on the same session, stopping at the
first thrown error as a JS caller would. -/
def addMessages (sid : String) : SessionStore → List AddInput → Except String SessionStore
  | store, [] => .ok store
  | store, i :: rest =>
    match addMessage store sid i with
    | .error e => .error e
    | .ok store' => addMessages sid store' rest

/-- The projection `getConversationHistory` returns per message. -/
structure HistoryEntry where
  role : String
  content : String
  timestamp : Nat
deriving DecidableEq, Repr

/-- Embedding of `getConversationHistory(sessionId, limit = null)`: empty list
when `getSession` yields `null`; otherwise optionally the last `limit`
messages (`slice(-limit)` when `limit && limit > 0`), projected to
role/content/timestamp.  The possibly-updated map is returned alongside. -/
def getConversationHistory (store : SessionStore) (now : Nat) (sid : String)
    (limit : Option Nat) : List HistoryEntry × SessionStore :=
  match getSession store now sid with
  | (none, store') => ([], store')
  | (some s, store') =>
    let messages :=
      match limit with
      | some l => if 0 < l then s.messages.drop (s.messages.length - l) else s.messages
      | none => s.messages
    (messages.map (fun m =>
      { role := m.role, content := m.content, timestamp := m.timestamp }), store')

/-! ## LLM service: providers, mock responses, retry, fallback -/

/-- The closed provider set of llmService.js. -/
inductive Provider where
  | openai
  | gemini
  | claude
  | mistral
  | mock
deriving DecidableEq, Repr

/-- The provider name string held in `config.provider`. -/
def providerName : Provider → String
  | .openai => "openai"
  | .gemini => "gemini"
  | .claude => "claude"
  | .mistral => "mistral"
  | .mock => "mock"

/-- The llmService configuration fields used by the modelled operations
(temperature, maxTokens and timeout only shape the outbound request body,
which is abstracted into the network outcome). -/
structure LLMConfig where
  provider : Provider
  openaiApiKey : String := ""
  geminiApiKey : String := ""
  claudeApiKey : String := ""
  mistralApiKey : String := ""
  openaiModel : String := "gpt-3.5-turbo"
  geminiModel : String := "gemini-1.0-pro"
  claudeModel : String := "claude-3-haiku-20240307"
  mistralModel : String := "mistral-tiny"
  maxRetries : Nat := 3
  retryDelay : Nat := 1000
deriving DecidableEq, Repr

/-- Embedding of `getCurrentApiKey`. -/
def getCurrentApiKey (c : LLMConfig) : String :=
  match c.provider with
  | .openai => c.openaiApiKey
  | .gemini => c.geminiApiKey
  | .claude => c.claudeApiKey
  | .mistral => c.mistralApiKey
  | .mock => "mock-key"

/-- Embedding of `getCurrentModel`. -/
def getCurrentModel (c : LLMConfig) : String :=
  match c.provider with
  | .openai => c.openaiModel
  | .gemini => c.geminiModel
  | .claude => c.claudeModel
  | .mistral => c.mistralModel
  | .mock => "mock-model"

/-- The module-level usage counters `totalTokensUsed` and `requestCount`. -/
structure LLMState where
  totalTokensUsed : Nat
  requestCount : Nat
deriving DecidableEq, Repr

/-- What `parseResponse` extracts from a successful provider response. -/
structure ParsedResponse where
  content : String
  tokensUsed : Nat
deriving DecidableEq, Repr

/-- The value an llmService call resolves with. JS result objects built by
`makeAPICall` carry no `fallback` property, modelled as `fallback := false`. -/
structure LLMResult where
  content : String
  tokensUsed : Nat
  model : String
  provider : String
  timestamp : String
  fallback : Bool := false
deriving DecidableEq, Repr

/-- Substring test on character lists, embedding JS `String.includes`. -/
def containsList : List Char → List Char → Bool
  | [], pat => pat.isEmpty
  | c :: cs, pat => pat.isPrefixOf (c :: cs) || containsList cs pat

/-- JS `lowerPrompt.includes(key)`. -/
def strContains (s pat : String) : Bool := containsList s.toList pat.toList

/-- The keyword table of `generateMockResponse`, in JS insertion order
(`Object.entries` iterates string keys in insertion order). -/
def mockResponses : List (String × String) :=
  [("hello", "Hello! How can I help you today? I can assist with account management, security settings, billing inquiries, mobile app features, troubleshooting, and API integration."),
   ("hi", "Hi there! What can I help you with? I'm here to assist with account management, security settings, billing, mobile app features, troubleshooting, and API integration."),
   ("hey", "Hey! How can I assist you today? I can help with account management, security settings, billing inquiries, mobile app features, troubleshooting, and API integration."),
   ("good morning", "Good morning! How can I help you today? I'm your RAG-powered assistant ready to assist with account management, security settings, billing, and more."),
   ("good afternoon", "Good afternoon! What can I help you with today? I'm here to assist with account management, security settings, billing, mobile app features, and more."),
   ("good evening", "Good evening! How can I assist you today? I'm your RAG-powered assistant ready to help with account management, security settings, billing, and more."),
   ("thanks", "You're welcome! Is there anything else I can help you with?"),
   ("thank you", "You're welcome! Is there anything else I can assist you with?"),
   ("bye", "Goodbye! Feel free to come back anytime if you need help."),
   ("goodbye", "Goodbye! Have a great day and come back anytime you need assistance."),
   ("help", "I can help you with: account management, security settings, billing inquiries, mobile app features, troubleshooting, and API integration. What would you like to know?"),
   ("password", "You can reset your password from Settings > Security. Click on \"Change Password\" and enter your current password followed by the new password."),
   ("account", "To set up a new account, click on the \"Sign Up\" button on the homepage. Enter your email address, create a strong password, and provide your full name."),
   ("2fa", "Two-Factor Authentication (2FA) adds an extra layer of security. Enable 2FA from Settings > Security > Two-Factor Authentication."),
   ("billing", "We accept various payment methods including credit cards, debit cards, and PayPal. You can update your payment method from Settings > Billing."),
   ("mobile", "Our mobile app is available for both iOS and Android devices. Download it from the App Store or Google Play Store."),
   ("troubleshoot", "If you're having trouble logging in, first check your internet connection, clear your browser cache and cookies, then try again."),
   ("api", "Our API allows developers to integrate our services. Visit the Developer Dashboard to generate an API key and access comprehensive documentation."),
   ("default", "I can help you with account management, security settings, billing inquiries, mobile app features, troubleshooting, and API integration. Please ask me about any of these topics or try rephrasing your question.")]

/-- Embedding of `generateMockResponse(prompt)`: exact key match on the
lowercased trimmed prompt first, then the first key contained in the prompt,
else the `default` entry. -/
def generateMockResponse (prompt : String) : String :=
  let lowerPrompt := prompt.toLower.trim
  match mockResponses.find? (fun kv => kv.1 == lowerPrompt) with
  | some kv => kv.2
  | none =>
    match mockResponses.find? (fun kv => strContains lowerPrompt kv.1) with
    | some kv => kv.2
    | none => "I can help you with account management, security settings, billing inquiries, mobile app features, troubleshooting, and API integration. Please ask me about any of these topics or try rephrasing your question."

/-- Embedding of `makeAPICall(prompt)`.  The mock provider resolves (after a
simulated delay) with the keyword-matched response and zero tokens, touching
no counter.  For a real provider, the fetch/parse pipeline is abstracted by
`net`: `.ok parsed` is a 2xx response whose `parseResponse` extraction
yielded `parsed`, any rejection (non-ok status, network failure, abort
timeout) is `.error e`.  On success the source adds the parsed token count
to `totalTokensUsed` and increments `requestCount` before resolving. -/
def makeAPICall (cfg : LLMConfig) (st : LLMState) (prompt : String)
    (net : Except String ParsedResponse) (now : String) :
    LLMState × Except String LLMResult :=
  if cfg.provider = .mock then
    (st,
     .ok { content := generateMockResponse prompt
           tokensUsed := 0
           model := "mock-model"
           provider := "mock"
           timestamp := now })
  else
    match net with
    | .ok parsed =>
      ({ totalTokensUsed := st.totalTokensUsed + parsed.tokensUsed
         requestCount := st.requestCount + 1 },
       .ok { content := parsed.content
             tokensUsed := parsed.tokensUsed
             model := getCurrentModel cfg
             provider := providerName cfg.provider
             timestamp := now })
    | .error e => (st, .error e)

/-- Embedding of the `tryCall` retry loop inside `callLLM`.  `net k` is the
outcome of the `k`-th network attempt (attempts are numbered from 1 as in
the source).  On success the loop body runs `requestCount++` a second time
and resolves.  On failure, the source tests `attempt >= config.maxRetries`;
here `remaining = maxRetries - attempt` tracks that test structurally, so
`remaining = 0` is exactly the exhaustion case, which rejects with the
message wrapping the last error.  Otherwise the loop waits
`retryDelay * 2 ^ (attempt - 1)` ms (collected in the returned delay list)
and retries sequentially with `attempt + 1`. -/
def tryCallAux (cfg : LLMConfig) (prompt : String)
    (net : Nat → Except String ParsedResponse) (now : String) :
    Nat → Nat → LLMState → List Nat × LLMState × Except String LLMResult
  | remaining, attempt, st =>
    match makeAPICall cfg st prompt (net attempt) now with
    | (st', .ok response) =>
      ([], { st' with requestCount := st'.requestCount + 1 }, .ok response)
    | (st', .error e) =>
      match remaining with
      | 0 =>
        ([], st',
         .error ("LLM API failed after " ++ toString cfg.maxRetries ++ " attempts: " ++ e))
      | remaining' + 1 =>
        let r := tryCallAux cfg prompt net now remaining' (attempt + 1) st'
        (cfg.retryDelay * 2 ^ (attempt - 1) :: r.1, r.2)

/-- JS `config.provider.toUpperCase()`: the provider set is closed, so the
uppercasing is tabulated. -/
def providerNameUpper : Provider → String
  | .openai => "OPENAI"
  | .gemini => "GEMINI"
  | .claude => "CLAUDE"
  | .mistral => "MISTRAL"
  | .mock => "MOCK"

/-- The synchronous throw message of `callLLM` for a missing key. -/
def missingKeyMessage (cfg : LLMConfig) : String :=
  "API key is required. Set " ++ providerNameUpper cfg.provider ++
    "_API_KEY environment variable."

instance {ε α : Type} [DecidableEq ε] [DecidableEq α] : DecidableEq (Except ε α) := fun
  | .ok a, .ok b =>
    if h : a = b then .isTrue (by rw [h]) else .isFalse (by simp [h])
  | .ok _, .error _ => .isFalse (by simp)
  | .error _, .ok _ => .isFalse (by simp)
  | .error a, .error b =>
    if h : a = b then .isTrue (by rw [h]) else .isFalse (by simp [h])

/-- Outcome of a `callLLM` invocation as seen by a JS caller.  `callLLM` is a
plain (non-async) function that returns a promise: a missing API key is a
synchronous `throw` raised before any promise exists (`syncThrow`), while
`promise` carries the backoff delays taken, the final counter state and the
settled promise value. -/
inductive CallLLMResult where
  | syncThrow (message : String)
  | promise (delays : List Nat) (finalState : LLMState)
      (result : Except String LLMResult)
deriving DecidableEq, Repr

/-- Final counter state of a call, when one exists (no state is read on the
synchronous-throw path). -/
def CallLLMResult.state? : CallLLMResult → Option LLMState
  | .syncThrow _ => none
  | .promise _ st _ => some st

/-- Whether the call escaped with a synchronous exception. -/
def CallLLMResult.isSyncThrow : CallLLMResult → Bool
  | .syncThrow _ => true
  | .promise _ _ _ => false

/-- Embedding of `callLLM(prompt)`: synchronous throw when
`getCurrentApiKey()` is empty, otherwise the retry loop starting at
attempt 1. -/
def callLLM (cfg : LLMConfig) (st : LLMState) (prompt : String)
    (net : Nat → Except String ParsedResponse) (now : String) : CallLLMResult :=
  if getCurrentApiKey cfg = "" then
    .syncThrow (missingKeyMessage cfg)
  else
    let r := tryCallAux cfg prompt net now (cfg.maxRetries - 1) 1 st
    .promise r.1 r.2.1 r.2.2

/-- The fixed apologetic message of `generateFallbackResponse`. -/
def fallbackContent : String :=
  "I apologize, but I'm currently experiencing issues with the AI service. This might be due to API quota limits or temporary service disruptions. The RAG system is working correctly - I can still retrieve relevant documents, but I'm unable to generate AI responses right now. Please try again later or contact support if the issue persists."

/-- Embedding of `generateFallbackResponse(error)`: the error message is only
logged; the returned object is fixed apart from the timestamp. -/
def generateFallbackResponse (_error : String) (now : String) : LLMResult :=
  { content := fallbackContent
    tokensUsed := 0
    model := "fallback-response"
    provider := "fallback"
    timestamp := now
    fallback := true }

/-- Embedding of `callLLMWithFallback(prompt)`, i.e.
`callLLM(prompt).catch(error => generateFallbackResponse(error.message))`.
The `.catch` handler only ever attaches to the promise `callLLM` returns;
a synchronous throw inside `callLLM` (missing API key) happens while the
call expression itself is being evaluated and propagates to the caller. -/
def callLLMWithFallback (cfg : LLMConfig) (st : LLMState) (prompt : String)
    (net : Nat → Except String ParsedResponse) (now : String) : CallLLMResult :=
  match callLLM cfg st prompt net now with
  | .syncThrow m => .syncThrow m
  | .promise ds st' (.ok r) => .promise ds st' (.ok r)
  | .promise ds st' (.error e) => .promise ds st' (.ok (generateFallbackResponse e now))

/-! ## RAG pipeline: prompt construction -/

/-- A history message as consumed by `constructPrompt`. -/
structure PromptMessage where
  role : String
  content : String
deriving DecidableEq, Repr

/-- A retrieved context entry as consumed by `constructPrompt` (only the
title and content fields are read by it). -/
structure ContextChunk where
  title : String
  content : String
deriving DecidableEq, Repr

/-- Embedding of `constructPrompt(userQuery, context, conversationHistory)`:
fixed system instruction, then (when non-empty) the last six history entries
as `Role: content` lines, then (when non-empty) the retrieved context as
`[Document i: title]` blocks, then the user question, in this order. -/
def constructPrompt (userQuery : String) (context : List ContextChunk)
    (conversationHistory : List PromptMessage) : String :=
  let p1 :=
    "You are a helpful AI assistant. Answer the user's question based ONLY on the provided context. " ++
    "If the context doesn't contain enough information to answer the question, say so clearly. " ++
    "Do not make up information or hallucinate answers.\n\n"
  let p2 :=
    if 0 < conversationHistory.length then
      "=== CONVERSATION HISTORY ===\n" ++
      String.join
        ((conversationHistory.drop (conversationHistory.length - 6)).map (fun m =>
          (if m.role = "user" then "User" else "Assistant") ++ ": " ++ m.content ++ "\n")) ++
      "\n"
    else ""
  let p3 :=
    if 0 < context.length then
      "=== RELEVANT CONTEXT ===\n" ++
      String.join (context.enum.map (fun p =>
        "[Document " ++ toString (p.1 + 1) ++ ": " ++ p.2.title ++ "]\n" ++
          p.2.content ++ "\n\n")) ++
      "=== END OF CONTEXT ===\n\n"
    else ""
  let p4 := "=== USER QUESTION ===\n" ++ userQuery ++ "\n\n=== YOUR RESPONSE ===\n"
  p1 ++ p2 ++ p3 ++ p4

/-- Modelled from the spec: the fixed system instruction section. -/
def systemSectionSpec : String :=
  "You are a helpful AI assistant. Answer the user's question based ONLY on the provided context. " ++
  "If the context doesn't contain enough information to answer the question, say so clearly. " ++
  "Do not make up information or hallucinate answers.\n\n"

/-- Modelled from the spec: one `Role: content` history line (the source
renders any non-user role as `Assistant`). -/
def historyLineSpec (m : PromptMessage) : String :=
  (if m.role = "user" then "User" else "Assistant") ++ ": " ++ m.content ++ "\n"

/-- Modelled from the spec: the conversation-history section, present iff the
history is non-empty, rendering exactly the last 6 entries oldest first. -/
def historySectionSpec (hist : List PromptMessage) : String :=
  if hist = [] then ""
  else
    "=== CONVERSATION HISTORY ===\n" ++
      String.join ((hist.drop (hist.length - 6)).map historyLineSpec) ++ "\n"

/-- Modelled from the spec: one `[Document order: title]` context block;
`order` is the 1-based rank of the entry. -/
def contextBlockSpec (order : Nat) (c : ContextChunk) : String :=
  "[Document " ++ toString order ++ ": " ++ c.title ++ "]\n" ++ c.content ++ "\n\n"

/-- Modelled from the spec: the retrieved-context section, present iff the
context list is non-empty, one block per entry in rank order. -/
def contextSectionSpec (ctx : List ContextChunk) : String :=
  if ctx = [] then ""
  else
    "=== RELEVANT CONTEXT ===\n" ++
      String.join (ctx.enum.map (fun p => contextBlockSpec (p.1 + 1) p.2)) ++
      "=== END OF CONTEXT ===\n\n"

/-- Modelled from the spec: the literal user-question section. -/
def questionSectionSpec (q : String) : String :=
  "=== USER QUESTION ===\n" ++ q ++ "\n\n=== YOUR RESPONSE ===\n"

/-! ## RAG pipeline: cosine similarity and similarity search -/

/-- A vector-store entry as consumed by `similaritySearch` (payload fields
other than the embedding are irrelevant to the modelled behavior and are
kept as the chunk id). -/
structure VChunk where
  id : String
  embedding : List ℝ

/-- A vector-store entry decorated with its similarity score
(`{...chunk, similarity}`). -/
structure ScoredChunk where
  chunk : VChunk
  similarity : ℝ

/-- Embedding of `calculateCosineSimilarity(vecA, vecB)`: throws on a
dimension mismatch; accumulates dot product and squared norms over
`vecA.length` indices; returns `0` when either norm is zero, else the
normalized dot product. -/
noncomputable def calculateCosineSimilarity (vecA vecB : List ℝ) : Except String ℝ :=
  if vecA.length ≠ vecB.length then .error "Vectors must have the same dimensions"
  else
    let dotProduct := ∑ i ∈ Finset.range vecA.length, vecA.getD i 0 * vecB.getD i 0
    let normA := Real.sqrt (∑ i ∈ Finset.range vecA.length, vecA.getD i 0 * vecA.getD i 0)
    let normB := Real.sqrt (∑ i ∈ Finset.range vecA.length, vecB.getD i 0 * vecB.getD i 0)
    if normA = 0 ∨ normB = 0 then .ok 0
    else .ok (dotProduct / (normA * normB))

/-- The mapping step of `similaritySearch`: score every store entry; a throw
from `calculateCosineSimilarity` escapes the whole search. -/
noncomputable def scoreChunks (queryEmbedding : List ℝ) (vectorStore : List VChunk) :
    Except String (List ScoredChunk) :=
  vectorStore.mapM (fun chunk =>
    (calculateCosineSimilarity queryEmbedding chunk.embedding).map
      (fun s => { chunk := chunk, similarity := s }))

/-- Stable descending insertion: an element moves past only strictly greater
scores, so equal scores keep their original relative order. -/
noncomputable def insertDesc (x : ScoredChunk) : List ScoredChunk → List ScoredChunk
  | [] => [x]
  | y :: ys =>
    if y.similarity ≤ x.similarity then x :: y :: ys else y :: insertDesc x ys

/-- Embedding of `similarities.sort((a, b) => b.similarity - a.similarity)`.
ES2019 requires `Array.prototype.sort` to be stable, and a stable sort
under a fixed total preorder has a unique result, so this stable insertion
sort computes exactly the sorted array of the source. -/
noncomputable def sortBySimilarityDesc : List ScoredChunk → List ScoredChunk
  | [] => []
  | x :: xs => insertDesc x (sortBySimilarityDesc xs)

/-- Embedding of `similaritySearch(queryEmbedding)` over an explicit store and
configuration: score, sort descending, filter by
`similarity >= similarityThreshold`, truncate to `maxRetrievedChunks`. -/
noncomputable def similaritySearch (queryEmbedding : List ℝ) (vectorStore : List VChunk)
    (similarityThreshold : ℝ) (maxRetrievedChunks : Nat) :
    Except String (List ScoredChunk) :=
  (scoreChunks queryEmbedding vectorStore).map (fun sims =>
    ((sortBySimilarityDesc sims).filter
        (fun r => decide (similarityThreshold ≤ r.similarity))).take maxRetrievedChunks)

/-! ## Witness fixtures -/

/-- A concrete text of 301 single-letter words. -/
def textC4 : String :=
  "w w w w w w w w w w w w w w w w w w w w w w w w w w w w w w w w w w w w w w w w w w w w w w w w w w w w w w w w w w w w w w w w w w w w w w w w w w w w w w w w w w w w w w w w w w w w w w w w w w w w w w w w w w w w w w w w w w w w w w w w w w w w w w w w w w w w w w w w w w w w w w w w w w w w w w w w w w w w w w w w w w w w w w w w w w w w w w w w w w w w w w w w w w w w w w w w w w w w w w w w w w w w w w w w w w w w w w w w w w w w w w w w w w w w w w w w w w w w w w w w w w w w w w w w w w w w w w w w w w w w w w w w w w w w w w w w w w w w w w w w w w w w w w w w w w w w w w w w w w w w w"

/-- A fresh empty session used by concrete runs. -/
def sessA : Session :=
  { id := "s1", createdAt := 0, lastActivity := 0, messages := [], messageCount := 0 }

/-- A store holding just `sessA`. -/
def storeA : SessionStore := [("s1", sessA)]

/-- One concrete `addMessage` input. -/
def inputA : AddInput :=
  { now := 0, role := "user", content := "hello", msgId := "m1", metadata := {} }

/-- The message `inputA` produces. -/
def msgA : ChatMessage := mkChatMessage inputA

/-- Seven identical `addMessage` inputs. -/
def stepsA : List AddInput := List.replicate 7 inputA

/-- The store after running `stepsA` against `storeA`. -/
def storeA7 : SessionStore :=
  [("s1",
    { id := "s1", createdAt := 0, lastActivity := 0,
       messages := List.replicate 6 msgA, messageCount := 7 })]

/-- A session whose last activity is stale by more than the timeout at
`now = 3600001`. -/
def sessExp : Session :=
  { id := "a", createdAt := 0, lastActivity := 0, messages := [msgA], messageCount := 1 }

/-- A store holding just the stale session. -/
def storeExp : SessionStore := [("a", sessExp)]

/-- Gemini configuration with a key (defaults: maxRetries 3, retryDelay 1000). -/
def cfgGemini : LLMConfig := { provider := .gemini, geminiApiKey := "k" }

/-- Gemini configuration with no key configured. -/
def cfgNoKey : LLMConfig := { provider := .gemini }

/-- Mock-provider configuration. -/
def cfgMock : LLMConfig := { provider := .mock }

/-- Gemini configuration with a key and a single retry attempt. -/
def cfgOneRetry : LLMConfig := { provider := .gemini, geminiApiKey := "k", maxRetries := 1 }

/-- Zeroed usage counters. -/
def st0 : LLMState := { totalTokensUsed := 0, requestCount := 0 }

/-- A network oracle where every attempt succeeds with 5 tokens. -/
def netOk : Nat → Except String ParsedResponse :=
  fun _ => .ok { content := "hi", tokensUsed := 5 }

/-- A network oracle where every attempt fails. -/
def netFail : Nat → Except String ParsedResponse := fun _ => .error "boom"

/-! ## Theorems: chunking (C4, C9) -/

lemma chunkLoop_spec (words : List String) (fuel : Nat) :
    ∀ i, i + 50 < words.length → words.length - i ≤ fuel →
      ∃ cs, chunkLoop words 300 50 i fuel = some cs ∧
        cs.length = (words.length - i + 199) / 250 ∧
        ∃ j, words.length ≤ j + 300 ∧
          cs.getLast? = some (String.intercalate " " ((words.drop j).take 300)) := by
  induction fuel with
  | zero => intro i hi hf; omega
  | succ fuel ih =>
    intro i hi hf
    by_cases hbreak : words.length ≤ i + 300
    · refine ⟨[String.intercalate " " ((words.drop i).take 300)], ?_, ?_, i, hbreak, rfl⟩
      · simp only [chunkLoop, if_pos (show i < words.length by omega), if_pos hbreak]
      · simp only [List.length_cons, List.length_nil]
        symm
        exact Nat.div_eq_of_lt_le (by omega) (by omega)
    · obtain ⟨cs, hcs, hclen, j, hj, hlast⟩ := ih (i + 250) (by omega) (by omega)
      refine ⟨String.intercalate " " ((words.drop i).take 300) :: cs, ?_, ?_, j, hj, ?_⟩
      · simp only [chunkLoop, if_pos (show i < words.length by omega), if_neg hbreak]
        rw [show (300 - 50 : Nat) = 250 from rfl, hcs]
      · simp only [List.length_cons, hclen]
        have harith : words.length - i + 199 = (words.length - (i + 250) + 199) + 250 := by
          omega
        rw [harith, Nat.add_div_right _ (by norm_num)]
      · have hne : cs ≠ [] := by
          intro hnil
          rw [hnil] at hclen
          have h1 : 1 ≤ (words.length - (i + 250) + 199) / 250 := by
            rw [Nat.one_le_div_iff (by norm_num)]
            omega
          simp at hclen
          omega
        cases cs with
        | nil => exact absurd rfl hne
        | cons hd tl => rw [List.getLast?_cons_cons, hlast]

/-- Claim C4: for a text of `w > 300` words chunked with size 300 and
overlap 50, `chunkText` terminates and returns exactly
`ceil((w - 50) / 250) = (w - 50 + 249) / 250` chunks, and the last chunk is
a window starting at some index `j` with `j + 300 ≥ w`, i.e. it extends to
the end of the word list. -/
theorem chunkText_count_c4 (text : String)
    (hw : 300 < (splitWords text).length) :
    ∃ cs, chunkText text 300 50 = some cs ∧
      cs.length = ((splitWords text).length - 50 + 249) / 250 ∧
      ∃ j, (splitWords text).length ≤ j + 300 ∧
        cs.getLast? =
          some (String.intercalate " " (((splitWords text).drop j).take 300)) := by
  obtain ⟨cs, hcs, hclen, j, hj, hlast⟩ :=
    chunkLoop_spec (splitWords text) ((splitWords text).length + 1) 0 (by omega) (by omega)
  refine ⟨cs, hcs, ?_, j, hj, hlast⟩
  rw [hclen]
  congr 1
  omega

lemma chunkLoop_zero_stride (words : List String) (chunkSize overlap : Nat)
    (hov : chunkSize ≤ overlap) (hlen : chunkSize < words.length) :
    ∀ fuel, chunkLoop words chunkSize overlap 0 fuel = none := by
  intro fuel
  induction fuel with
  | zero => rfl
  | succ fuel ih =>
    have hstride : chunkSize - overlap = 0 := by omega
    simp only [chunkLoop, if_pos (show 0 < words.length by omega),
      if_neg (show ¬ words.length ≤ 0 + chunkSize by omega), hstride, Nat.add_zero, ih]

/-- Claim C9 (code behavior at the failing configurations): whenever
`overlap ≥ size` and the text is longer than one window, `chunkText` does
not fail fast with any configuration error — the loop index never advances,
so the loop never terminates: no iteration bound whatsoever completes it. -/
theorem chunkText_overlap_ge_size_diverges_c9 (text : String) (chunkSize overlap : Nat)
    (hov : chunkSize ≤ overlap) (hlen : chunkSize < (splitWords text).length) :
    chunkText text chunkSize overlap = none ∧
    ∀ fuel, chunkLoop (splitWords text) chunkSize overlap 0 fuel = none := by
  refine ⟨?_, chunkLoop_zero_stride _ _ _ hov hlen⟩
  exact chunkLoop_zero_stride _ _ _ hov hlen _

/-- Witness for C9's behavior theorem at a concrete input: three words,
window size 2, overlap 2. -/
theorem chunkText_overlap_ge_size_diverges_c9_witness :
    chunkText "a b c" 2 2 = none ∧
    chunkLoop (splitWords "a b c") 2 2 0 1000 = none := by
  have h := chunkText_overlap_ge_size_diverges_c9 "a b c" 2 2 (by norm_num) (by decide)
  exact ⟨h.1, h.2 1000⟩

/-- Witness for C4 at a concrete 301-word text: exactly two chunks come out
and the last one reaches the end of the word list. -/
theorem chunkText_count_c4_witness :
    ∃ cs, chunkText textC4 300 50 = some cs ∧ cs.length = 2 := by
  obtain ⟨cs, h1, h2, _⟩ := chunkText_count_c4 textC4 (by decide)
  exact ⟨cs, h1, by rw [h2]; decide⟩

/-! ## Theorems: conversation store (C5, C10) -/

lemma trimToMax_eq_drop (l : List ChatMessage) :
    trimToMax l = l.drop (l.length - 6) := by
  simp only [trimToMax, maxHistoryLength]
  split
  · rfl
  · rw [Nat.sub_eq_zero_of_le (by omega), List.drop_zero]

lemma trimToMax_length_le (l : List ChatMessage) : (trimToMax l).length ≤ 6 := by
  rw [trimToMax_eq_drop, List.length_drop]
  omega

lemma trimToMax_append_trim (x r : List ChatMessage) :
    trimToMax (trimToMax x ++ r) = trimToMax (x ++ r) := by
  rw [trimToMax_eq_drop x,
    ← List.drop_append_of_le_length (show x.length - 6 ≤ x.length by omega),
    trimToMax_eq_drop, trimToMax_eq_drop, List.drop_drop, List.length_drop,
    List.length_append]
  congr 1
  omega

lemma foldl_trim_of_le (ms : List ChatMessage) :
    ∀ acc : List ChatMessage, acc.length ≤ 6 →
      ms.foldl (fun a m => trimToMax (a ++ [m])) acc = trimToMax (acc ++ ms) := by
  induction ms with
  | nil =>
    intro acc h
    rw [List.foldl_nil, List.append_nil, trimToMax_eq_drop,
      Nat.sub_eq_zero_of_le h, List.drop_zero]
  | cons m rest ih =>
    intro acc h
    rw [List.foldl_cons, ih _ (trimToMax_length_le _), trimToMax_append_trim,
      List.append_assoc, List.singleton_append]

lemma foldl_trim_of_ge (ms : List ChatMessage) (h6 : 6 ≤ ms.length)
    (acc : List ChatMessage) :
    ms.foldl (fun a m => trimToMax (a ++ [m])) acc = ms.drop (ms.length - 6) := by
  cases ms with
  | nil => simp at h6
  | cons m rest =>
    rw [List.foldl_cons, foldl_trim_of_le rest _ (trimToMax_length_le _),
      trimToMax_append_trim, List.append_assoc, List.singleton_append,
      trimToMax_eq_drop, List.length_append]
    have harith : acc.length + (m :: rest).length - 6 =
        acc.length + ((m :: rest).length - 6) := by
      simp only [List.length_cons] at h6 ⊢
      omega
    rw [harith, List.drop_append]

lemma lookupSession_update (store : SessionStore) (sid : String) (s s' : Session)
    (h : lookupSession store sid = some s) :
    lookupSession (updateSession store sid s') sid = some s' := by
  induction store with
  | nil => simp [lookupSession] at h
  | cons kv rest ih =>
    cases hkv : (kv.1 == sid) with
    | false =>
      simp only [lookupSession, updateSession, List.map_cons, hkv, if_neg,
        Bool.false_eq_true, not_false_eq_true, List.find?_cons_of_neg] at h ⊢
      exact ih h
    | true =>
      simp only [updateSession, List.map_cons, if_pos hkv, lookupSession]
      rw [@List.find?_cons_of_pos _ (fun kv => kv.1 == sid) (kv.1, s') _ hkv]
      rfl

lemma addMessage_ok (store store' : SessionStore) (sid : String) (i : AddInput)
    (h : addMessage store sid i = .ok store') :
    ∃ s, lookupSession store sid = some s ∧ isSessionExpired i.now s = false ∧
      store' = updateSession store sid
        { s with
          messages := trimToMax (s.messages ++ [mkChatMessage i])
          messageCount := s.messageCount + 1
          lastActivity := i.now } := by
  unfold addMessage at h
  split at h
  · simp at h
  · rename_i session store₂ heq
    simp only [Except.ok.injEq] at h
    unfold getSession at heq
    split at heq
    · simp at heq
    · rename_i s hls
      split at heq
      · simp at heq
      · rename_i hexp
        simp only [Prod.mk.injEq, Option.some.injEq] at heq
        obtain ⟨hses, hst⟩ := heq
        refine ⟨s, hls, by simpa using hexp, ?_⟩
        rw [← h, hses, hst]

lemma addMessages_ok (sid : String) :
    ∀ (steps : List AddInput) (store store' : SessionStore) (s : Session),
      addMessages sid store steps = .ok store' →
      lookupSession store sid = some s →
      ∃ s', lookupSession store' sid = some s' ∧
        s'.messages =
          (steps.map mkChatMessage).foldl (fun a m => trimToMax (a ++ [m]))
            s.messages := by
  intro steps
  induction steps with
  | nil =>
    intro store store' s h hls
    simp only [addMessages, Except.ok.injEq] at h
    exact ⟨s, h ▸ hls, by simp⟩
  | cons i rest ih =>
    intro store store' s h hls
    unfold addMessages at h
    cases ha : addMessage store sid i with
    | error e => rw [ha] at h; simp at h
    | ok store₁ =>
      rw [ha] at h
      obtain ⟨sf, hlsf, _, hupd⟩ := addMessage_ok store store₁ sid i ha
      have hsf : sf = s := by
        rw [hls] at hlsf
        exact (Option.some.injEq _ _ ▸ hlsf).symm ▸ rfl
      subst hsf
      have hlk₁ : lookupSession store₁ sid =
          some { sf with
                 messages := trimToMax (sf.messages ++ [mkChatMessage i])
                 messageCount := sf.messageCount + 1
                 lastActivity := i.now } := by
        rw [hupd]
        exact lookupSession_update store sid sf _ hlsf
      obtain ⟨s', hs', hmsg⟩ := ih store₁ store' _ h hlk₁
      refine ⟨s', hs', ?_⟩
      rw [hmsg, List.map_cons, List.foldl_cons]

/-- Claim C5: a successful `addMessage` always leaves the target session with
at most `maxHistoryLength = 6` messages, and after any run of `n > 6`
successful `addMessage` calls on a session the session holds exactly the 6
most recently added messages, oldest first (the oldest excess messages are
dropped from the front). -/
theorem addMessage_trims_to_six_c5 :
    (∀ (store store' : SessionStore) (sid : String) (i : AddInput),
        addMessage store sid i = .ok store' →
        ∃ s', lookupSession store' sid = some s' ∧ s'.messages.length ≤ 6) ∧
    (∀ (store store' : SessionStore) (sid : String) (steps : List AddInput),
        addMessages sid store steps = .ok store' → 6 < steps.length →
        ∃ s', lookupSession store' sid = some s' ∧
          s'.messages = (steps.map mkChatMessage).drop (steps.length - 6) ∧
          s'.messages.length = 6) := by
  constructor
  · intro store store' sid i h
    obtain ⟨s, hls, _, hupd⟩ := addMessage_ok store store' sid i h
    refine ⟨{ s with
              messages := trimToMax (s.messages ++ [mkChatMessage i])
              messageCount := s.messageCount + 1
              lastActivity := i.now }, ?_, trimToMax_length_le _⟩
    rw [hupd]
    exact lookupSession_update store sid s _ hls
  · intro store store' sid steps h hn
    cases hsteps : steps with
    | nil => rw [hsteps] at hn; simp at hn
    | cons i rest =>
      subst hsteps
      have hfirst : ∃ store₁, addMessage store sid i = .ok store₁ := by
        unfold addMessages at h
        cases ha : addMessage store sid i with
        | error e => rw [ha] at h; simp at h
        | ok store₁ => exact ⟨store₁, rfl⟩
      obtain ⟨store₁, ha⟩ := hfirst
      obtain ⟨s, hls, _, _⟩ := addMessage_ok store store₁ sid i ha
      obtain ⟨s', hs', hmsg⟩ := addMessages_ok sid (i :: rest) store store' s h hls
      have hlen : 6 ≤ ((i :: rest).map mkChatMessage).length := by
        rw [List.length_map]
        omega
      refine ⟨s', hs', ?_, ?_⟩
      · rw [hmsg, foldl_trim_of_ge _ hlen, List.length_map]
      · rw [hmsg, foldl_trim_of_ge _ hlen, List.length_drop, List.length_map]
        simp only [List.length_cons] at hn ⊢
        omega

/-- Witness for C5 at a concrete run: seven adds on a fresh session leave
exactly the last six messages. -/
theorem addMessage_trims_to_six_c5_witness :
    ∃ s', lookupSession storeA7 "s1" = some s' ∧
      s'.messages = (stepsA.map mkChatMessage).drop (stepsA.length - 6) ∧
      s'.messages.length = 6 :=
  addMessage_trims_to_six_c5.2 storeA storeA7 "s1" stepsA (by decide) (by decide)

/-- Claim C10: `getConversationHistory` is total over session ids — for an
absent id, or one whose session is expired at the current clock, it returns
the empty history rather than throwing. -/
theorem getConversationHistory_total_c10 (store : SessionStore) (now : Nat)
    (sid : String) (limit : Option Nat)
    (habsent : lookupSession store sid = none ∨
      ∃ s, lookupSession store sid = some s ∧ isSessionExpired now s = true) :
    (getConversationHistory store now sid limit).1 = [] := by
  unfold getConversationHistory getSession
  rcases habsent with h | ⟨s, hs, hexp⟩
  · rw [h]
  · simp [hs, hexp]

/-- Witness for C10: an expired session id and a missing session id both
yield the empty history. -/
theorem getConversationHistory_total_c10_witness :
    (getConversationHistory storeExp 3600001 "a" none).1 = [] ∧
    (getConversationHistory storeExp 3600001 "zzz" none).1 = [] :=
  ⟨getConversationHistory_total_c10 storeExp 3600001 "a" none
      (Or.inr ⟨sessExp, by decide, by decide⟩),
    getConversationHistory_total_c10 storeExp 3600001 "zzz" none
      (Or.inl (by decide))⟩

/-! ## Theorems: LLM gateway (C1, C2, C3) -/

lemma tryCallAux_all_fail (cfg : LLMConfig) (prompt now : String)
    (net : Nat → Except String ParsedResponse) (errs : Nat → String)
    (hmock : cfg.provider ≠ .mock)
    (hfail : ∀ k, net k = .error (errs k)) :
    ∀ (remaining attempt : Nat) (st : LLMState), 1 ≤ attempt →
      tryCallAux cfg prompt net now remaining attempt st =
        ((List.range' (attempt - 1) remaining).map (fun i => cfg.retryDelay * 2 ^ i), st,
          .error ("LLM API failed after " ++ toString cfg.maxRetries ++ " attempts: " ++
            errs (attempt + remaining))) := by
  intro remaining
  induction remaining with
  | zero =>
    intro attempt st h1
    unfold tryCallAux makeAPICall
    rw [if_neg hmock, hfail attempt]
    exact rfl
  | succ remaining ih =>
    intro attempt st h1
    have hrec := ih (attempt + 1) st (by omega)
    unfold tryCallAux makeAPICall
    rw [if_neg hmock, hfail attempt]
    show (cfg.retryDelay * 2 ^ (attempt - 1) ::
        (tryCallAux cfg prompt net now remaining (attempt + 1) st).1,
       (tryCallAux cfg prompt net now remaining (attempt + 1) st).2) = _
    rw [hrec]
    have hr : List.range' (attempt - 1) (remaining + 1) =
        (attempt - 1) :: List.range' (attempt + 1 - 1) remaining := by
      rw [List.range'_succ]
      have h2 : attempt - 1 + 1 = attempt + 1 - 1 := by omega
      rw [h2]
    rw [hr, List.map_cons]
    have hidx : attempt + 1 + remaining = attempt + (remaining + 1) := by omega
    rw [hidx]

/-- Claim C3: when the API key is present and every network attempt fails,
`callLLM` makes exactly `maxRetries` sequential attempts, waiting
`retryDelay * 2 ^ (k - 1)` before attempt `k + 1` (the delay list is
`[retryDelay * 2 ^ 0, …, retryDelay * 2 ^ (maxRetries - 2)]`), leaves the
usage counters untouched, and rejects with the message wrapping the last
attempt's error. -/
theorem callLLM_retry_c3 (cfg : LLMConfig) (st : LLMState) (prompt now : String)
    (net : Nat → Except String ParsedResponse) (errs : Nat → String)
    (hkey : ¬ getCurrentApiKey cfg = "")
    (hmock : cfg.provider ≠ .mock)
    (hmax : 1 ≤ cfg.maxRetries)
    (hfail : ∀ k, net k = .error (errs k)) :
    callLLM cfg st prompt net now =
      .promise ((List.range (cfg.maxRetries - 1)).map (fun i => cfg.retryDelay * 2 ^ i)) st
        (.error ("LLM API failed after " ++ toString cfg.maxRetries ++ " attempts: " ++
          errs cfg.maxRetries)) := by
  unfold callLLM
  rw [if_neg hkey,
    tryCallAux_all_fail cfg prompt now net errs hmock hfail (cfg.maxRetries - 1) 1 st (by omega)]
  have hidx : 1 + (cfg.maxRetries - 1) = cfg.maxRetries := by omega
  rw [hidx, show (1 : Nat) - 1 = 0 from rfl, ← List.range_eq_range']

/-- Witness for C3: with `maxRetries = 3` and `retryDelay = 1000` and every
attempt failing, the delays are 1000 then 2000 and the rejection wraps the
last error. -/
theorem callLLM_retry_c3_witness :
    callLLM cfgGemini st0 "p" netFail "t" =
      .promise [1000, 2000] st0
        (.error "LLM API failed after 3 attempts: boom") := by
  rw [callLLM_retry_c3 cfgGemini st0 "p" "t" netFail (fun _ => "boom")
    (by decide) (by decide) (by decide) (fun k => rfl)]
  rfl

/-- Claim C1 (amended): when the configured key for the active provider is
present, every rejection of the promise returned by `callLLM` is converted
by `callLLMWithFallback` into a successful result carrying the fixed
apologetic message, `provider = "fallback"`, `tokensUsed = 0` and
`fallback = true`; but when the key is missing, `callLLM` throws
synchronously and that error propagates out of `callLLMWithFallback`. -/
theorem callLLMWithFallback_c1 (cfg : LLMConfig) (st : LLMState) (prompt now : String)
    (net : Nat → Except String ParsedResponse) :
    (∀ ds st' e, callLLM cfg st prompt net now = .promise ds st' (.error e) →
      callLLMWithFallback cfg st prompt net now =
        .promise ds st' (.ok
          { content := fallbackContent
            tokensUsed := 0
            model := "fallback-response"
            provider := "fallback"
            timestamp := now
            fallback := true })) ∧
    (getCurrentApiKey cfg = "" →
      callLLMWithFallback cfg st prompt net now = .syncThrow (missingKeyMessage cfg)) := by
  constructor
  · intro ds st' e h
    unfold callLLMWithFallback
    rw [h]
    exact rfl
  · intro hkey
    unfold callLLMWithFallback callLLM
    rw [if_pos hkey]

/-- Witness for C1's amended theorem: with a key present and one failing
attempt, the rejection becomes the synthetic fallback success. -/
theorem callLLMWithFallback_c1_witness :
    callLLMWithFallback cfgOneRetry st0 "p" netFail "t" =
      .promise [] st0 (.ok
        { content := fallbackContent
          tokensUsed := 0
          model := "fallback-response"
          provider := "fallback"
          timestamp := "t"
          fallback := true }) :=
  (callLLMWithFallback_c1 cfgOneRetry st0 "p" "t" netFail).1 [] st0
    "LLM API failed after 1 attempts: boom" (by rfl)

/-- Counterexample to C1 as stated: with the gemini provider active and no
gemini key configured, `callLLMWithFallback` does not return the synthetic
fallback result — the missing-key error escapes synchronously to the
caller. -/
theorem callLLMWithFallback_missing_key_counterexample_c1 :
    callLLMWithFallback cfgNoKey st0 "hello" netFail "t" =
      .syncThrow "API key is required. Set GEMINI_API_KEY environment variable." ∧
    ∀ ds st' res, callLLMWithFallback cfgNoKey st0 "hello" netFail "t" ≠
      .promise ds st' res := by
  have h1 : callLLMWithFallback cfgNoKey st0 "hello" netFail "t" =
      .syncThrow "API key is required. Set GEMINI_API_KEY environment variable." := by rfl
  refine ⟨h1, ?_⟩
  intro ds st' res h
  rw [h1] at h
  exact CallLLMResult.noConfusion h

/-- Claim C2 (amended): `makeAPICall` updates the counters exactly on a
successful real-provider call (adding the parsed token count and one
request) and leaves them unchanged on the mock path and on failures; the
all-attempts-fail fallback path of `callLLMWithFallback` leaves them
unchanged; but `callLLM` runs a second `requestCount++` on every successful
call, so one successful real-provider call through `callLLM` adds 2 to
`requestCount` and a mock call through `callLLM` adds 1. -/
theorem counters_c2 (cfg : LLMConfig) (st : LLMState) (prompt now : String)
    (p : ParsedResponse) (e : String)
    (net : Nat → Except String ParsedResponse) (errs : Nat → String) :
    (cfg.provider = .mock → (makeAPICall cfg st prompt (net 1) now).1 = st) ∧
    (cfg.provider ≠ .mock → (makeAPICall cfg st prompt (.error e) now).1 = st) ∧
    (cfg.provider ≠ .mock → (makeAPICall cfg st prompt (.ok p) now).1 =
      { totalTokensUsed := st.totalTokensUsed + p.tokensUsed
        requestCount := st.requestCount + 1 }) ∧
    (cfg.provider ≠ .mock → ¬ getCurrentApiKey cfg = "" →
      (∀ k, net k = .error (errs k)) →
      (callLLMWithFallback cfg st prompt net now).state? = some st) ∧
    (cfg.provider ≠ .mock → ¬ getCurrentApiKey cfg = "" → net 1 = .ok p →
      (callLLM cfg st prompt net now).state? =
        some { totalTokensUsed := st.totalTokensUsed + p.tokensUsed
               requestCount := st.requestCount + 2 }) ∧
    (cfg.provider = .mock →
      (callLLM cfg st prompt net now).state? =
        some { totalTokensUsed := st.totalTokensUsed
               requestCount := st.requestCount + 1 }) := by
  refine ⟨?_, ?_, ?_, ?_, ?_, ?_⟩
  · intro hm
    unfold makeAPICall
    rw [if_pos hm]
  · intro hm
    unfold makeAPICall
    rw [if_neg hm]
  · intro hm
    unfold makeAPICall
    rw [if_neg hm]
  · intro hm hkey hfail
    unfold callLLMWithFallback callLLM
    rw [if_neg hkey,
      tryCallAux_all_fail cfg prompt now net errs hm hfail (cfg.maxRetries - 1) 1 st (by omega)]
    exact rfl
  · intro hm hkey hnet
    have hmk : makeAPICall cfg st prompt (net 1) now =
        ({ totalTokensUsed := st.totalTokensUsed + p.tokensUsed
           requestCount := st.requestCount + 1 },
         .ok { content := p.content
               tokensUsed := p.tokensUsed
               model := getCurrentModel cfg
               provider := providerName cfg.provider
               timestamp := now }) := by
      unfold makeAPICall
      rw [if_neg hm, hnet]
    unfold callLLM
    rw [if_neg hkey]
    unfold tryCallAux
    rw [hmk]
    exact rfl
  · intro hm
    have hkey : ¬ getCurrentApiKey cfg = "" := by
      unfold getCurrentApiKey
      rw [hm]
      simp
    have hmk : makeAPICall cfg st prompt (net 1) now =
        (st, .ok { content := generateMockResponse prompt
                   tokensUsed := 0
                   model := "mock-model"
                   provider := "mock"
                   timestamp := now }) := by
      unfold makeAPICall
      rw [if_pos hm]
    unfold callLLM
    rw [if_neg hkey]
    unfold tryCallAux
    rw [hmk]
    exact rfl

/-- Counterexample to C2 as stated: one successful gemini call through
`callLLM` increments `requestCount` by 2 (not 1), and a mock-provider call
through `callLLM` increments it by 1 (not 0). -/
theorem counters_c2_counterexample :
    (callLLM cfgGemini st0 "x" netOk "t").state? =
      some { totalTokensUsed := 5, requestCount := 2 } ∧
    ¬ (callLLM cfgGemini st0 "x" netOk "t").state? =
      some { totalTokensUsed := 5, requestCount := 1 } ∧
    (callLLM cfgMock st0 "x" netOk "t").state? =
      some { totalTokensUsed := 0, requestCount := 1 } ∧
    ¬ (callLLM cfgMock st0 "x" netOk "t").state? = some st0 := by
  refine ⟨rfl, by decide, rfl, by decide⟩

/-- Witness for C2's amended theorem at concrete inputs. -/
theorem counters_c2_witness :
    (makeAPICall cfgMock st0 "x" (netOk 1) "t").1 = st0 ∧
    (makeAPICall cfgGemini st0 "x" (.error "boom") "t").1 = st0 ∧
    (makeAPICall cfgGemini st0 "x" (.ok { content := "hi", tokensUsed := 5 }) "t").1 =
      { totalTokensUsed := 5, requestCount := 1 } ∧
    (callLLMWithFallback cfgGemini st0 "x" netFail "t").state? = some st0 ∧
    (callLLM cfgGemini st0 "x" netOk "t").state? =
      some { totalTokensUsed := 5, requestCount := 2 } ∧
    (callLLM cfgMock st0 "x" netOk "t").state? =
      some { totalTokensUsed := 0, requestCount := 1 } :=
  ⟨(counters_c2 cfgMock st0 "x" "t" ⟨"hi", 5⟩ "boom" netOk (fun _ => "boom")).1 rfl,
   (counters_c2 cfgGemini st0 "x" "t" ⟨"hi", 5⟩ "boom" netOk (fun _ => "boom")).2.1
     (by decide),
   (counters_c2 cfgGemini st0 "x" "t" ⟨"hi", 5⟩ "boom" netOk (fun _ => "boom")).2.2.1
     (by decide),
   (counters_c2 cfgGemini st0 "x" "t" ⟨"hi", 5⟩ "boom" netFail (fun _ => "boom")).2.2.2.1
     (by decide) (by decide) (fun k => rfl),
   (counters_c2 cfgGemini st0 "x" "t" ⟨"hi", 5⟩ "boom" netOk (fun _ => "boom")).2.2.2.2.1
     (by decide) (by decide) rfl,
   (counters_c2 cfgMock st0 "x" "t" ⟨"hi", 5⟩ "boom" netOk (fun _ => "boom")).2.2.2.2.2
     rfl⟩

/-! ## Theorems: prompt construction (C8) -/

/-- Claim C8: `constructPrompt` is exactly the concatenation, in order, of the
fixed system instruction, the history section, the context section and the
user-question section; the history section is present (non-empty) iff the
history is non-empty and renders exactly the last 6 entries as
`Role: content` lines oldest first; the context section is present iff the
context is non-empty, with one `[Document order: title]` block plus content
per entry in rank order. -/
theorem constructPrompt_sections_c8 (q : String) (ctx : List ContextChunk)
    (hist : List PromptMessage) :
    constructPrompt q ctx hist =
      systemSectionSpec ++ historySectionSpec hist ++ contextSectionSpec ctx ++
        questionSectionSpec q ∧
    (historySectionSpec hist = "" ↔ hist = []) ∧
    (contextSectionSpec ctx = "" ↔ ctx = []) := by
  refine ⟨?_, ?_, ?_⟩
  · unfold constructPrompt systemSectionSpec historySectionSpec contextSectionSpec
      questionSectionSpec historyLineSpec contextBlockSpec
    cases hist with
    | nil => cases ctx <;> simp
    | cons m ms => cases ctx <;> simp
  · constructor
    · intro h
      by_contra hne
      unfold historySectionSpec at h
      rw [if_neg hne] at h
      have hlen := congrArg String.length h
      rw [String.length_append, String.length_append] at hlen
      have hpos : 0 < ("=== CONVERSATION HISTORY ===\n" : String).length := by decide
      have hempty : ("" : String).length = 0 := rfl
      omega
    · intro h
      subst h
      unfold historySectionSpec
      rw [if_pos rfl]
  · constructor
    · intro h
      by_contra hne
      unfold contextSectionSpec at h
      rw [if_neg hne] at h
      have hlen := congrArg String.length h
      rw [String.length_append, String.length_append] at hlen
      have hpos : 0 < ("=== RELEVANT CONTEXT ===\n" : String).length := by decide
      have hempty : ("" : String).length = 0 := rfl
      omega
    · intro h
      subst h
      unfold contextSectionSpec
      rw [if_pos rfl]

/-! ## Theorems: cosine similarity (C7) -/

/-- Claim C7: `calculateCosineSimilarity` throws exactly when the dimensions
differ; with matching dimensions it returns `0` whenever either vector has
zero norm (no division is attempted), and otherwise returns a value in
`[-1, 1]`. -/
theorem cosineSimilarity_c7 (a b : List ℝ) :
    ((∃ msg, calculateCosineSimilarity a b = .error msg) ↔ a.length ≠ b.length) ∧
    (a.length = b.length →
      ((∑ i ∈ Finset.range a.length, a.getD i 0 * a.getD i 0) = 0 ∨
        (∑ i ∈ Finset.range a.length, b.getD i 0 * b.getD i 0) = 0) →
      calculateCosineSimilarity a b = .ok 0) ∧
    (a.length = b.length →
      (∑ i ∈ Finset.range a.length, a.getD i 0 * a.getD i 0) ≠ 0 →
      (∑ i ∈ Finset.range a.length, b.getD i 0 * b.getD i 0) ≠ 0 →
      ∃ r, calculateCosineSimilarity a b = .ok r ∧ -1 ≤ r ∧ r ≤ 1) := by
  refine ⟨?_, ?_, ?_⟩
  · by_cases h : a.length = b.length
    · simp only [calculateCosineSimilarity, if_neg (not_not_intro h)]
      constructor
      · rintro ⟨msg, hmsg⟩
        split at hmsg <;> simp at hmsg
      · intro hne
        exact absurd h hne
    · simp only [calculateCosineSimilarity, if_pos h]
      exact ⟨fun _ => h, fun _ => ⟨_, rfl⟩⟩
  · intro hlen hzero
    simp only [calculateCosineSimilarity, if_neg (not_not_intro hlen)]
    rw [if_pos]
    rcases hzero with h0 | h0
    · left
      rw [h0, Real.sqrt_zero]
    · right
      rw [h0, Real.sqrt_zero]
  · intro hlen hA hB
    have hAnn : 0 ≤ ∑ i ∈ Finset.range a.length, a.getD i 0 * a.getD i 0 :=
      Finset.sum_nonneg (fun i _ => mul_self_nonneg _)
    have hBnn : 0 ≤ ∑ i ∈ Finset.range a.length, b.getD i 0 * b.getD i 0 :=
      Finset.sum_nonneg (fun i _ => mul_self_nonneg _)
    have hApos : 0 < ∑ i ∈ Finset.range a.length, a.getD i 0 * a.getD i 0 :=
      lt_of_le_of_ne hAnn (Ne.symm hA)
    have hBpos : 0 < ∑ i ∈ Finset.range a.length, b.getD i 0 * b.getD i 0 :=
      lt_of_le_of_ne hBnn (Ne.symm hB)
    have hsA : 0 < Real.sqrt (∑ i ∈ Finset.range a.length, a.getD i 0 * a.getD i 0) :=
      Real.sqrt_pos.mpr hApos
    have hsB : 0 < Real.sqrt (∑ i ∈ Finset.range a.length, b.getD i 0 * b.getD i 0) :=
      Real.sqrt_pos.mpr hBpos
    have hcs : (∑ i ∈ Finset.range a.length, a.getD i 0 * b.getD i 0) ^ 2 ≤
        (∑ i ∈ Finset.range a.length, a.getD i 0 * a.getD i 0) *
          ∑ i ∈ Finset.range a.length, b.getD i 0 * b.getD i 0 := by
      have h := Finset.sum_mul_sq_le_sq_mul_sq (Finset.range a.length)
        (fun i => a.getD i 0) (fun i => b.getD i 0)
      have ha2 : (∑ i ∈ Finset.range a.length, (a.getD i 0) ^ 2) =
          ∑ i ∈ Finset.range a.length, a.getD i 0 * a.getD i 0 :=
        Finset.sum_congr rfl (fun i _ => sq (a.getD i 0) ▸ by ring)
      have hb2 : (∑ i ∈ Finset.range a.length, (b.getD i 0) ^ 2) =
          ∑ i ∈ Finset.range a.length, b.getD i 0 * b.getD i 0 :=
        Finset.sum_congr rfl (fun i _ => by ring)
      rw [ha2, hb2] at h
      exact h
    have habs : |∑ i ∈ Finset.range a.length, a.getD i 0 * b.getD i 0| ≤
        Real.sqrt (∑ i ∈ Finset.range a.length, a.getD i 0 * a.getD i 0) *
          Real.sqrt (∑ i ∈ Finset.range a.length, b.getD i 0 * b.getD i 0) := by
      rw [← Real.sqrt_mul_self (abs_nonneg (∑ i ∈ Finset.range a.length,
        a.getD i 0 * b.getD i 0)), ← Real.sqrt_mul hAnn]
      apply Real.sqrt_le_sqrt
      rw [abs_mul_abs_self]
      calc (∑ i ∈ Finset.range a.length, a.getD i 0 * b.getD i 0) *
            (∑ i ∈ Finset.range a.length, a.getD i 0 * b.getD i 0)
          = (∑ i ∈ Finset.range a.length, a.getD i 0 * b.getD i 0) ^ 2 := by ring
        _ ≤ _ := hcs
    have hq : |(∑ i ∈ Finset.range a.length, a.getD i 0 * b.getD i 0) /
        (Real.sqrt (∑ i ∈ Finset.range a.length, a.getD i 0 * a.getD i 0) *
          Real.sqrt (∑ i ∈ Finset.range a.length, b.getD i 0 * b.getD i 0))| ≤ 1 := by
      rw [abs_div, abs_of_pos (mul_pos hsA hsB), div_le_one (mul_pos hsA hsB)]
      exact habs
    obtain ⟨hlo, hhi⟩ := abs_le.mp hq
    refine ⟨_, ?_, hlo, hhi⟩
    simp only [calculateCosineSimilarity, if_neg (not_not_intro hlen)]
    rw [if_neg]
    push_neg
    exact ⟨ne_of_gt hsA, ne_of_gt hsB⟩

/-- Witness for C7: a zero-norm second vector yields `0`, and two matching
unit vectors yield a value inside `[-1, 1]`. -/
theorem cosineSimilarity_c7_witness :
    calculateCosineSimilarity ([1] : List ℝ) [0] = .ok 0 ∧
    (∃ r, calculateCosineSimilarity ([1] : List ℝ) [1] = .ok r ∧ -1 ≤ r ∧ r ≤ 1) := by
  constructor
  · exact (cosineSimilarity_c7 [1] [0]).2.1 (by simp)
      (Or.inr (by simp [Finset.sum_range_one]))
  · exact (cosineSimilarity_c7 [1] [1]).2.2 (by simp)
      (by norm_num [Finset.sum_range_one]) (by norm_num [Finset.sum_range_one])

/-! ## Theorems: similarity search (C6) -/

lemma mem_insertDesc (x z : ScoredChunk) (l : List ScoredChunk) :
    z ∈ insertDesc x l ↔ z = x ∨ z ∈ l := by
  induction l with
  | nil => simp [insertDesc]
  | cons y ys ih =>
    rw [insertDesc]
    by_cases h : y.similarity ≤ x.similarity
    · rw [if_pos h]
      simp [or_comm, or_assoc, or_left_comm]
    · rw [if_neg h]
      simp only [List.mem_cons, ih]
      tauto

lemma insertDesc_pairwise (x : ScoredChunk) (l : List ScoredChunk)
    (hl : l.Pairwise (fun a c => c.similarity ≤ a.similarity)) :
    (insertDesc x l).Pairwise (fun a c => c.similarity ≤ a.similarity) := by
  induction l with
  | nil => simp [insertDesc]
  | cons y ys ih =>
    rw [insertDesc]
    rcases List.pairwise_cons.mp hl with ⟨hy, hys⟩
    by_cases h : y.similarity ≤ x.similarity
    · rw [if_pos h]
      refine List.Pairwise.cons ?_ hl
      intro z hz
      rcases List.mem_cons.mp hz with rfl | hz
      · exact h
      · exact le_trans (hy z hz) h
    · rw [if_neg h]
      refine List.Pairwise.cons ?_ (ih hys)
      intro z hz
      rcases (mem_insertDesc x z ys).mp hz with rfl | hz
      · exact le_of_lt (lt_of_not_le h)
      · exact hy z hz

lemma sortBySimilarityDesc_pairwise (l : List ScoredChunk) :
    (sortBySimilarityDesc l).Pairwise (fun a c => c.similarity ≤ a.similarity) := by
  induction l with
  | nil => simp [sortBySimilarityDesc]
  | cons x xs ih =>
    rw [sortBySimilarityDesc]
    exact insertDesc_pairwise x _ ih

lemma filter_insertDesc (v : ℝ) (x : ScoredChunk) (l : List ScoredChunk) :
    (insertDesc x l).filter (fun r => decide (r.similarity = v)) =
      if x.similarity = v then
        x :: l.filter (fun r => decide (r.similarity = v))
      else l.filter (fun r => decide (r.similarity = v)) := by
  induction l with
  | nil =>
    rw [insertDesc]
    by_cases hx : x.similarity = v
    · simp [List.filter_cons, hx]
    · simp [List.filter_cons, hx]
  | cons y ys ih =>
    rw [insertDesc]
    by_cases hxy : y.similarity ≤ x.similarity
    · rw [if_pos hxy]
      by_cases hx : x.similarity = v
      · simp [List.filter_cons, hx]
      · simp [List.filter_cons, hx]
    · rw [if_neg hxy]
      by_cases hy : y.similarity = v
      · have hx : ¬ x.similarity = v := by
          intro hx
          exact hxy (le_of_eq (hy.trans hx.symm))
        simp [List.filter_cons, hy, hx, ih]
      · simp [List.filter_cons, hy, ih]

lemma filter_sortBySimilarityDesc (v : ℝ) (l : List ScoredChunk) :
    (sortBySimilarityDesc l).filter (fun r => decide (r.similarity = v)) =
      l.filter (fun r => decide (r.similarity = v)) := by
  induction l with
  | nil => rfl
  | cons x xs ih =>
    rw [sortBySimilarityDesc, filter_insertDesc, ih]
    by_cases hx : x.similarity = v
    · simp [List.filter_cons, hx]
    · simp [List.filter_cons, hx]

/-- Claim C6: whenever `similaritySearch` succeeds, the result is sorted by
descending similarity, its entries' relative order on equal scores agrees
with the store order (the filtered tied entries form a sublist of the scored
store), no entry scores below the threshold, and at most
`maxRetrievedChunks` entries are returned. -/
theorem similaritySearch_c6 (q : List ℝ) (store : List VChunk) (th : ℝ) (cap : Nat)
    (out : List ScoredChunk)
    (h : similaritySearch q store th cap = .ok out) :
    out.Pairwise (fun a c => c.similarity ≤ a.similarity) ∧
    (∀ r ∈ out, th ≤ r.similarity) ∧
    out.length ≤ cap ∧
    ∃ scored, scoreChunks q store = .ok scored ∧
      ∀ v : ℝ, List.Sublist (out.filter (fun r => decide (r.similarity = v)))
        (scored.filter (fun r => decide (r.similarity = v))) := by
  unfold similaritySearch at h
  cases hs : scoreChunks q store with
  | error e =>
    rw [hs] at h
    simp [Except.map] at h
  | ok scored =>
    rw [hs] at h
    simp only [Except.map, Except.ok.injEq] at h
    subst h
    refine ⟨?_, ?_, ?_, scored, rfl, ?_⟩
    · exact ((sortBySimilarityDesc_pairwise scored).filter _).sublist
        (List.take_sublist _ _)
    · intro r hr
      have hr' := List.take_subset _ _ hr
      have := List.of_mem_filter hr'
      exact of_decide_eq_true this
    · exact List.length_take_le _ _
    · intro v
      have h1 := (List.take_sublist cap
        ((sortBySimilarityDesc scored).filter (fun r => decide (th ≤ r.similarity)))).filter
        (fun r => decide (r.similarity = v))
      have h3 : List.Sublist
          ((sortBySimilarityDesc scored).filter (fun r => decide (th ≤ r.similarity)))
          (sortBySimilarityDesc scored) := List.filter_sublist _
      have h2 := h3.filter (fun r => decide (r.similarity = v))
      rw [filter_sortBySimilarityDesc] at h2
      exact h1.trans h2

/-- Witness for C6 on the empty store, where the search succeeds with an
empty result. -/
theorem similaritySearch_c6_witness :
    ([] : List ScoredChunk).Pairwise (fun a c => c.similarity ≤ a.similarity) ∧
    (∀ r ∈ ([] : List ScoredChunk), (0.7 : ℝ) ≤ r.similarity) ∧
    ([] : List ScoredChunk).length ≤ 3 ∧
    ∃ scored, scoreChunks [] [] = .ok scored ∧
      ∀ v : ℝ, List.Sublist (([] : List ScoredChunk).filter (fun r => decide (r.similarity = v)))
        (scored.filter (fun r => decide (r.similarity = v))) :=
  similaritySearch_c6 [] [] 0.7 3 [] rfl

end RagChat
